import Mathlib

/-!
# Verification of the RJD automation tool core

Shallow embedding of the record-ingestion / date-resolution / artifact-generation
core of the repository (`server/fillFromSheet.js`, `server/poll-jotform.js`, and
the unnamed source parts), together with proofs checking the natural-language
specification against it.

Modelling conventions:
* JS strings are Lean `String` (lists of characters); identifiers in this code
  base are ASCII, where JS UTF-16 code-unit comparison and Lean character
  comparison agree.
* JS regular expressions used by the source are small anchored patterns; they
  are embedded as explicit backtracking matchers that enumerate quantifier
  choices in the engine's greedy priority order.
* `new Date(y, m-1, d)` followed by the component round-trip check
  (`getFullYear/getMonth/getDate`) is modelled by `jsDateRoundTrip`: for
  `0 ≤ y ≤ 99` the JS constructor maps `y` to `1900+y` so the year comparison
  fails, and otherwise the check succeeds iff `(y,m,d)` is a real proleptic
  Gregorian calendar date (otherwise the constructor rolls the date over and a
  component comparison fails).
* `Date.prototype.getTime` is modelled at UTC offset zero via days-from-civil
  arithmetic (`getTimeMillis`); both `Date.now()` and resolved dates are
  measured on the same axis, as in the source.
* The filesystem seen by the artifact writer is a pair of an output-directory
  existence flag and an association list from paths to file contents.
-/

namespace RJD

/-! ## JS character classes and string helpers -/

/-- The character class `\s` of JS regular expressions (WhiteSpace ∪ LineTerminator). -/
def jsWhitespace (c : Char) : Bool :=
  c = ' ' || c = '\t' || c = '\n' || c = '\r' || c = '\x0b' || c = '\x0c' ||
  c = '\u00a0' || c = '\u1680' ||
  ('\u2000' ≤ c && c ≤ '\u200a') ||
  c = '\u2028' || c = '\u2029' || c = '\u202f' || c = '\u205f' || c = '\u3000' || c = '\ufeff'

/-- The separator class `[\/\-\.\s]` of the numeric date patterns. -/
def isSepChar (c : Char) : Bool :=
  c = '/' || c = '-' || c = '.' || jsWhitespace c

/-- `String.prototype.trim` of JS: drop leading and trailing `\s` characters. -/
def trimJsList (cs : List Char) : List Char :=
  ((cs.dropWhile jsWhitespace).reverse.dropWhile jsWhitespace).reverse

/-- `String.prototype.trim` on strings. -/
def trimJS (s : String) : String :=
  ⟨trimJsList s.data⟩

/-- Numeric value of a capture made of decimal digits (`Number(m[i])` on a
digit-only capture). -/
def digitsToNat (cs : List Char) : Nat :=
  cs.foldl (fun n c => 10 * n + (c.toNat - '0'.toNat)) 0

/-- The two-digit-year mapping `rawYear < 100 ? 2000 + rawYear : rawYear` used
by every numeric date branch of the source. -/
def yearMap (rawYear : Nat) : Nat :=
  if rawYear < 100 then 2000 + rawYear else rawYear

/-! ## Backtracking regex primitives

Each helper enumerates the possible remainders of the input after one
quantified piece of a pattern, most-greedy first, exactly the order in which a
backtracking engine tries them.  `List.findSome?` over such an enumeration is
the engine's search. -/

/-- Remainders after `0*`, greedy first (most zeros consumed first). -/
def zeroDrops : List Char → List (List Char)
  | '0' :: rest => zeroDrops rest ++ ['0' :: rest]
  | cs => [cs]

/-- Remainders after `\s+` (at least one whitespace character), greedy first. -/
def wsDrops : List Char → List (List Char)
  | c :: rest => if jsWhitespace c then wsDrops rest ++ [rest] else []
  | [] => []

/-- Consume exactly `n` decimal digits, returning the capture and the rest. -/
def takeDigits (n : Nat) (cs : List Char) : Option (List Char × List Char) :=
  let pre := cs.take n
  if pre.length = n && pre.all Char.isDigit then some (pre, cs.drop n) else none

/-- Consume exactly `n` letters (`[A-Za-z]`), returning the capture and the rest. -/
def takeAlpha (n : Nat) (cs : List Char) : Option (List Char × List Char) :=
  let pre := cs.take n
  if pre.length = n && pre.all Char.isAlpha then some (pre, cs.drop n) else none

/-- Remainders after the optional ordinal suffix `(?:st|nd|rd|th)?` (case
insensitive), greedy first: consume the suffix when present, else skip it. -/
def ordinalDrops (cs : List Char) : List (List Char) :=
  match cs with
  | a :: b :: rest =>
    let lowered := [a.toLower, b.toLower]
    if lowered = ['s', 't'] || lowered = ['n', 'd'] || lowered = ['r', 'd'] || lowered = ['t', 'h'] then
      [rest, cs]
    else [cs]
  | _ => [cs]

/-! ## The three date patterns of `parseDateDeterministic` (fillFromSheet.js) -/

/-- Matcher for `/^0*(\d{1,2})[\/\-\.\s]0*(\d{1,2})[\/\-\.\s](\d{2,4})$/`,
returning the three captures. -/
def matchNumericRegex (cs : List Char) : Option (List Char × List Char × List Char) :=
  (zeroDrops cs).findSome? fun r1 =>
    [2, 1].findSome? fun n1 =>
      (takeDigits n1 r1).bind fun p1 =>
        match p1.2 with
        | s1 :: r3 =>
          if isSepChar s1 then
            (zeroDrops r3).findSome? fun r4 =>
              [2, 1].findSome? fun n2 =>
                (takeDigits n2 r4).bind fun p2 =>
                  match p2.2 with
                  | s2 :: r6 =>
                    if isSepChar s2 then
                      [4, 3, 2].findSome? fun n3 =>
                        (takeDigits n3 r6).bind fun p3 =>
                          if p3.2 = [] then some (p1.1, p2.1, p3.1) else none
                    else none
                  | [] => none
          else none
        | [] => none

/-- Matcher for `/^(\d{4})-(\d{1,2})-(\d{1,2})$/` (the ISO shape). -/
def matchIsoRegex (cs : List Char) : Option (List Char × List Char × List Char) :=
  (takeDigits 4 cs).bind fun p1 =>
    match p1.2 with
    | '-' :: r2 =>
      [2, 1].findSome? fun n2 =>
        (takeDigits n2 r2).bind fun p2 =>
          match p2.2 with
          | '-' :: r4 =>
            [2, 1].findSome? fun n3 =>
              (takeDigits n3 r4).bind fun p3 =>
                if p3.2 = [] then some (p1.1, p2.1, p3.1) else none
          | _ => none
    | _ => none

/-- Matcher for `/^(\d{1,2})(?:st|nd|rd|th)?\s+([A-Za-z]{3,9})\s+(\d{4})$/i`. -/
def matchTextualDayFirst (cs : List Char) : Option (List Char × List Char × List Char) :=
  [2, 1].findSome? fun n1 =>
    (takeDigits n1 cs).bind fun p1 =>
      (ordinalDrops p1.2).findSome? fun r2 =>
        (wsDrops r2).findSome? fun r3 =>
          [9, 8, 7, 6, 5, 4, 3].findSome? fun n2 =>
            (takeAlpha n2 r3).bind fun p2 =>
              (wsDrops p2.2).findSome? fun r5 =>
                (takeDigits 4 r5).bind fun p3 =>
                  if p3.2 = [] then some (p1.1, p2.1, p3.1) else none

/-- Matcher for `/^([A-Za-z]{3,9})\s+(\d{1,2})(?:st|nd|rd|th)?\s+(\d{4})$/i`. -/
def matchTextualMonthFirst (cs : List Char) : Option (List Char × List Char × List Char) :=
  [9, 8, 7, 6, 5, 4, 3].findSome? fun n1 =>
    (takeAlpha n1 cs).bind fun p1 =>
      (wsDrops p1.2).findSome? fun r2 =>
        [2, 1].findSome? fun n2 =>
          (takeDigits n2 r2).bind fun p2 =>
            (ordinalDrops p2.2).findSome? fun r4 =>
              (wsDrops r4).findSome? fun r5 =>
                (takeDigits 4 r5).bind fun p3 =>
                  if p3.2 = [] then some (p1.1, p2.1, p3.1) else none

/-! ## Calendar arithmetic and the JS `Date` round-trip check -/

/-- Gregorian leap-year rule (as implemented by the JS `Date` object). -/
def isLeapYear (y : Nat) : Bool :=
  (y % 4 = 0 && y % 100 ≠ 0) || y % 400 = 0

/-- Length of month `m` (1-based) of year `y`. -/
def daysInMonth (y m : Nat) : Nat :=
  if m = 2 then (if isLeapYear y then 29 else 28)
  else if m = 4 || m = 6 || m = 9 || m = 11 then 30
  else 31

/-- Model of the source's round-trip check: construct `new Date(y, m-1, d)` and
compare `getFullYear() === y && getMonth() === m-1 && getDate() === d`.
For `y ≤ 99` the constructor maps the year to `1900+y`, so the check fails;
otherwise it succeeds exactly when `(y,m,d)` is a real calendar date (a month
outside `1..12` or a day outside the month rolls the date over, and then the
month or day comparison fails). -/
def jsDateRoundTrip (y m d : Nat) : Bool :=
  100 ≤ y && 1 ≤ m && m ≤ 12 && 1 ≤ d && d ≤ daysInMonth y m

/-- Days from 1970-01-01 of the civil date `(y, m, d)` (proleptic Gregorian,
`y ≥ 1`); the standard era-based days-from-civil computation. -/
def daysFromCivil (y m d : Nat) : Int :=
  let yy := if m ≤ 2 then y - 1 else y
  let era := yy / 400
  let yoe := yy % 400
  let mp := (m + 9) % 12
  let doy := (153 * mp + 2) / 5 + d - 1
  let doe := yoe * 365 + yoe / 4 - yoe / 100 + doy
  ((era * 146097 + doe : Nat) : Int) - 719468

/-- A resolved calendar date (the validated components that the JS `Date`
object carries after a successful round-trip check). -/
structure CivDate where
  year : Nat
  month : Nat
  day : Nat
deriving DecidableEq, Repr

/-- `Date.prototype.getTime` in milliseconds, at UTC offset zero. -/
def getTimeMillis (d : CivDate) : Int :=
  daysFromCivil d.year d.month d.day * 86400000

/-! ## `parseDateDeterministic` (fillFromSheet.js lines 86–136) -/

/-- Interpretation kind reported by the deterministic parser. -/
inductive DKind where
  | dmy
  | iso
  | text
deriving DecidableEq, Repr

/-- Result record `{ date, kind }` of `parseDateDeterministic`. -/
structure ParseOut where
  date : Option CivDate
  kind : Option DKind
deriving DecidableEq, Repr

/-- Branch 1 of `parseDateDeterministic`: numeric captures are interpreted
day-first, a two-digit year maps to `2000+year`, ranges are pre-checked and the
constructed date must round-trip. -/
def numericResolve (g1 g2 g3 : List Char) : ParseOut :=
  let day := digitsToNat g1
  let month := digitsToNat g2
  let year := yearMap (digitsToNat g3)
  if 1 ≤ month ∧ month ≤ 12 ∧ 1 ≤ day ∧ day ≤ 31 then
    if jsDateRoundTrip year month day then ⟨some ⟨year, month, day⟩, some DKind.dmy⟩
    else ⟨none, none⟩
  else ⟨none, none⟩

/-- Branch 2 of `parseDateDeterministic`: the ISO `yyyy-mm-dd` shape. -/
def isoResolve (g1 g2 g3 : List Char) : ParseOut :=
  let year := digitsToNat g1
  let month := digitsToNat g2
  let day := digitsToNat g3
  if jsDateRoundTrip year month day then ⟨some ⟨year, month, day⟩, some DKind.iso⟩
  else ⟨none, none⟩

/-- The `monthNames` table of the source (full names and abbreviations). -/
def monthNames : List (List Char × Nat) :=
  [("january".data, 1), ("february".data, 2), ("march".data, 3), ("april".data, 4),
   ("may".data, 5), ("june".data, 6), ("july".data, 7), ("august".data, 8),
   ("september".data, 9), ("october".data, 10), ("november".data, 11), ("december".data, 12),
   ("jan".data, 1), ("feb".data, 2), ("mar".data, 3), ("apr".data, 4), ("jun".data, 6),
   ("jul".data, 7), ("aug".data, 8), ("sep".data, 9), ("sept".data, 9), ("oct".data, 10),
   ("nov".data, 11), ("dec".data, 12)]

/-- `monthNames[w.toLowerCase()]` as an association-list lookup. -/
def monthLookup (w : List Char) : Option Nat :=
  monthNames.lookup (w.map Char.toLower)

/-- `str.replace(/\s+/g, ' ')`: collapse every whitespace run to one space.
The flag records whether the previous character was part of a run. -/
def collapseWsAux : Bool → List Char → List Char
  | _, [] => []
  | prevWs, c :: rest =>
    if jsWhitespace c then
      if prevWs then collapseWsAux true rest else ' ' :: collapseWsAux true rest
    else c :: collapseWsAux false rest

/-- `str.replace(/,/g,' ').replace(/\s+/g,' ').trim()` of branch 3. -/
def cleanTextual (cs : List Char) : List Char :=
  trimJsList (collapseWsAux false (cs.map fun c => if c = ',' then ' ' else c))

/-- First textual pattern of branch 3 (`"5th January 2026"`); `none` falls
through to the month-first pattern, exactly as in the source. -/
def textualDayFirstResolve (cleaned : List Char) : Option ParseOut :=
  match matchTextualDayFirst cleaned with
  | none => none
  | some (g1, g2, g3) =>
    let day := digitsToNat g1
    let year := digitsToNat g3
    match monthLookup g2 with
    | none => none
    | some month =>
      if 1 ≤ day ∧ day ≤ 31 then
        if jsDateRoundTrip year month day then some ⟨some ⟨year, month, day⟩, some DKind.text⟩
        else none
      else none

/-- Second textual pattern of branch 3 (`"January 5 2026"`). -/
def textualMonthFirstResolve (cleaned : List Char) : Option ParseOut :=
  match matchTextualMonthFirst cleaned with
  | none => none
  | some (g1, g2, g3) =>
    let day := digitsToNat g2
    let year := digitsToNat g3
    match monthLookup g1 with
    | none => none
    | some month =>
      if 1 ≤ day ∧ day ≤ 31 then
        if jsDateRoundTrip year month day then some ⟨some ⟨year, month, day⟩, some DKind.text⟩
        else none
      else none

/-- `parseDateDeterministic(s)` of fillFromSheet.js: numeric day-first shape,
then ISO, then the two textual shapes; each numeric/ISO failure returns early
with `{date:null, kind:null}`, a failed textual validation falls through. -/
def parseDateDeterministic (s : String) : ParseOut :=
  if s = "" then ⟨none, none⟩
  else
    let str := trimJS s
    match matchNumericRegex str.data with
    | some (g1, g2, g3) => numericResolve g1 g2 g3
    | none =>
      match matchIsoRegex str.data with
      | some (g1, g2, g3) => isoResolve g1 g2 g3
      | none =>
        let cleaned := cleanTextual str.data
        match textualDayFirstResolve cleaned with
        | some r => r
        | none =>
          match textualMonthFirstResolve cleaned with
          | some r => r
          | none => ⟨none, none⟩

/-! ## Filename pipeline of `createDocx` (fillFromSheet.js lines 38–42, 138–153, 197–243) -/

/-- `formatDateForFilename(date)`: unpadded `D-M-YYYY` from the date components
(`getDate()-getMonth()+1-getFullYear()`). -/
def formatDateForFilename (d : CivDate) : String :=
  toString d.day ++ "-" ++ toString d.month ++ "-" ++ toString d.year

/-- `normalizeRawDateForFilename(raw)`: re-match the numeric day-first shape on
the trimmed raw string and return unpadded `D-M-YYYY` when the constructed date
round-trips, else `null`. -/
def normalizeRawDateForFilename (raw : String) : Option String :=
  if raw = "" then none
  else
    match matchNumericRegex (trimJS raw).data with
    | none => none
    | some (g1, g2, g3) =>
      let day := digitsToNat g1
      let month := digitsToNat g2
      let year := yearMap (digitsToNat g3)
      if jsDateRoundTrip year month day then
        some (toString day ++ "-" ++ toString month ++ "-" ++ toString year)
      else none

/-- The path-hostile character class `[\/\\?%*:|"<>]` of `safeFilename`. -/
def hostileChar (c : Char) : Bool :=
  c = '/' || c = '\\' || c = '?' || c = '%' || c = '*' || c = ':' ||
  c = '|' || c = '"' || c = '<' || c = '>'

/-- `safeFilename(str)` of fillFromSheet.js: replace path-hostile characters
with `-`, then trim. -/
def safeFilename (s : String) : String :=
  trimJS ⟨s.data.map fun c => if hostileChar c then '-' else c⟩

/-- Matcher for `FINAL_DATE_REGEX = /^\d{1,2}-\d{1,2}-\d{4}$/`. -/
def matchFinalDate (cs : List Char) : Option Unit :=
  [2, 1].findSome? fun n1 =>
    (takeDigits n1 cs).bind fun p1 =>
      match p1.2 with
      | '-' :: r2 =>
        [2, 1].findSome? fun n2 =>
          (takeDigits n2 r2).bind fun p2 =>
            match p2.2 with
            | '-' :: r4 =>
              (takeDigits 4 r4).bind fun p3 =>
                if p3.2 = [] then some () else none
            | _ => none
      | _ => none

/-- `FINAL_DATE_REGEX.test(s)`. -/
def finalDateRegexTest (s : String) : Bool :=
  (matchFinalDate s.data).isSome

/-- JS `a || b` on strings: `b` when `a` is empty. -/
def jsOr (a b : String) : String :=
  if a = "" then b else a

/-- The filename date token computed by `createDocx` (lines 205–216):
format the deterministic parse when it produced a date, else fall back to
`normalizeRawDateForFilename`, else the sentinel `nodate`. -/
def safeDateOfRaw (raw : String) : String :=
  let parsed := parseDateDeterministic raw
  let f0 := match parsed.date with
    | some d => formatDateForFilename d
    | none => ""
  let f1 := if f0 = "" then ((normalizeRawDateForFilename raw).getD "") else f0
  if f1 = "" then "nodate" else f1

/-- The template fields that take part in filename composition; the remaining
fields of `mapSheetRowToTemplateFields` are consumed only by the external
template renderer and play no role in the claims. -/
structure TplData where
  NAME : String
  DATE : String
  JOB_NO : String
deriving DecidableEq, Repr

/-- The artifact path `path.join(OUTPUT_DIR, dateToken-name-jobNo + ".docx")`
computed by `createDocx` (line 226). -/
def computedPath (outdir : String) (data : TplData) : String :=
  outdir ++ "/" ++ safeDateOfRaw data.DATE ++ "-" ++
    safeFilename (jsOr data.NAME "NONAME") ++ "-" ++
    safeFilename (jsOr data.JOB_NO "NOJOBNO") ++ ".docx"

/-- The filename-integrity condition of lines 218–222: the computed date token
is the sentinel or matches `FINAL_DATE_REGEX`; otherwise `createDocx` throws. -/
def filenameDateOk (raw : String) : Bool :=
  safeDateOfRaw raw = "nodate" || finalDateRegexTest (safeDateOfRaw raw)

/-! ## The artifact writer `createDocx` (fillFromSheet.js lines 197–243) -/

/-- Result object of `createDocx`: `{ skipped, path, dry? }`. -/
structure DocxResult where
  skipped : Bool
  path : String
  dry : Bool
deriving DecidableEq, Repr

/-- The filesystem as the writer sees it: whether the output directory exists,
and the files (paths mapped to contents of type `α`). -/
structure FsState (α : Type) where
  outDirExists : Bool
  files : List (String × α)
deriving DecidableEq, Repr

/-- `fs.writeFileSync(p, b)`: bind `p` to `b`, replacing any previous binding. -/
def fsWrite (p : String) (b : α) (files : List (String × α)) : List (String × α) :=
  (p, b) :: files.filter fun q => ¬ q.1 = p

/-- `createDocx(data)` of fillFromSheet.js.  The template render is an external
collaborator, so the rendered artifact bytes enter as `buf`; `tmplExists`
models `fs.existsSync(TEMPLATE_PATH)`.  The state is returned on every path,
including throws, because the source mutates the filesystem
(`fs.ensureDirSync(OUTPUT_DIR)`) before it can throw on a malformed filename
date or decide to skip. -/
def createDocx (outdir : String) (force dry : Bool) (tmplExists : Bool)
    (st : FsState α) (data : TplData) (buf : α) :
    FsState α × Except String DocxResult :=
  if ¬ tmplExists then (st, Except.error "Template not found")
  else
    let st1 : FsState α := { st with outDirExists := true }
    let safeDate := safeDateOfRaw data.DATE
    if safeDate ≠ "nodate" ∧ ¬ finalDateRegexTest safeDate then
      (st1, Except.error "Invalid filename date format - aborting")
    else
      let outputFile := computedPath outdir data
      if (st1.files.lookup outputFile).isSome ∧ ¬ force then
        (st1, Except.ok ⟨true, outputFile, false⟩)
      else if dry then
        (st1, Except.ok ⟨false, outputFile, true⟩)
      else
        ({ st1 with files := fsWrite outputFile buf st1.files }, Except.ok ⟨false, outputFile, false⟩)

/-! ## Row mapping (fillFromSheet.js lines 158–195, restricted to the
filename-relevant fields) -/

/-- A sheet row object: field name to string value.  Later bindings shadow
earlier ones, as for JS object property writes. -/
abbrev Row : Type := List (String × String)

/-- JS object property read `row[k]` (last write wins). -/
def jsGet (r : Row) (k : String) : Option String :=
  (List.reverse r).lookup k

/-- `normalize(s) = String(s||'').toLowerCase().replace(/[^a-z0-9]/g,'')`. -/
def normalizeKey (s : String) : String :=
  ⟨(s.data.map Char.toLower).filter fun c => c.isLower || c.isDigit⟩

/-- The `normRow` object: every field re-keyed by `normalizeKey`, built in
order so that later rows shadow earlier ones. -/
def normRow (r : Row) : Row :=
  r.map fun p => (normalizeKey p.1, p.2)

/-- `pick(...names)`: first candidate whose normalized lookup is non-empty
after trimming, returned trimmed. -/
def pick (r : Row) (names : List String) : String :=
  match names with
  | [] => ""
  | n :: rest =>
    match jsGet (normRow r) (normalizeKey n) with
    | some v => if trimJS v ≠ "" then trimJS v else pick r rest
    | none => pick r rest

/-- The filename-relevant projection of `mapSheetRowToTemplateFields`. -/
def mapSheetRowToTemplateFields (r : Row) : TplData :=
  { NAME := pick r ["Name", "Full Name", "full name", "name"],
    DATE := pick r ["Date", "DATE", "_created_at", "date"],
    JOB_NO := pick r ["Job Number", "JOB NUMBER", "Job No", "job number", "job_no"] }

/-! ## The retention (`--days`) filter of fillFromSheet.js (lines 251–271) -/

/-- The date string the filter parses for a row:
`mapped.DATE || r['Date'] || r['_created_at'] || ''`. -/
def dateStrOfRow (r : Row) : String :=
  jsOr (mapSheetRowToTemplateFields r).DATE
    (jsOr ((jsGet r "Date").getD "") ((jsGet r "_created_at").getD ""))

/-- One step of the filter loop: the resolved date/kind and the keep decision
`chosenDate && chosenDate.getTime() >= cutoff`. -/
structure RowStep where
  chosenDate : Option CivDate
  chosenKind : Option DKind
  keep : Bool
deriving DecidableEq, Repr

/-- The loop body of the `--days` filter under the deterministic parser. -/
def daysFilterStep (cutoff : Int) (r : Row) : RowStep :=
  let parsed := parseDateDeterministic (dateStrOfRow r)
  let keep := match parsed.date with
    | some d => decide (getTimeMillis d ≥ cutoff)
    | none => false
  ⟨parsed.date, parsed.kind, keep⟩

/-- The whole `--days` filter: with `days > 0` keep rows whose resolved date
lies at or after `now − days·86400000` ms; otherwise the rows pass unchanged. -/
def daysFilter (days : Int) (now : Int) (rows : List Row) : List Row :=
  if days > 0 then
    let cutoff := now - days * (24 * 60 * 60 * 1000)
    rows.filter fun r => (daysFilterStep cutoff r).keep
  else rows

/-! ## The legacy heuristic pipeline of `src/unnamed/part_001`
(`parseDateCandidates`, lines 77–125, and the cutoff tie-break of the main
IIFE, lines 255–277) -/

/-- Candidate kinds of `parseDateCandidates`. -/
inductive HKind where
  | native
  | dmy
  | mdy
deriving DecidableEq, Repr

/-- One entry of `out.candidates`. -/
structure Candidate where
  kind : HKind
  date : CivDate
deriving DecidableEq, Repr

/-- Result of `parseDateCandidates`. -/
structure CandOut where
  date : Option CivDate
  candidates : List Candidate
  chosenKind : Option HKind
deriving DecidableEq, Repr

/-- Matcher for `/^(\d{1,2})[\/\-\.\s](\d{1,2})[\/\-\.\s](\d{2,4})$/` (the
part_001 numeric shape, without the `0*` runs). -/
def matchNumericPlain (cs : List Char) : Option (List Char × List Char × List Char) :=
  [2, 1].findSome? fun n1 =>
    (takeDigits n1 cs).bind fun p1 =>
      match p1.2 with
      | s1 :: r3 =>
        if isSepChar s1 then
          [2, 1].findSome? fun n2 =>
            (takeDigits n2 r3).bind fun p2 =>
              match p2.2 with
              | s2 :: r6 =>
                if isSepChar s2 then
                  [4, 3, 2].findSome? fun n3 =>
                    (takeDigits n3 r6).bind fun p3 =>
                      if p3.2 = [] then some (p1.1, p2.1, p3.1) else none
                else none
              | [] => none
        else none
      | [] => none

/-- `parseDateCandidates(s)` of part_001.  `new Date(str)` free-form parsing is
implementation- and timezone-dependent, so the native candidate enters as the
explicit parameter `native` (`none` models an invalid native parse). -/
def parseDateCandidates (native : Option CivDate) (s : String) : CandOut :=
  if s = "" then ⟨none, [], none⟩
  else
    let str := trimJS s
    let nativeCands : List Candidate := match native with
      | some nd => [⟨HKind.native, nd⟩]
      | none => []
    let numericCands : List Candidate := match matchNumericPlain str.data with
      | none => []
      | some (c1, c2, c3) =>
        let p1 := digitsToNat c1
        let p2 := digitsToNat c2
        let year := yearMap (digitsToNat c3)
        (if 1 ≤ p2 ∧ p2 ≤ 12 ∧ 1 ≤ p1 ∧ p1 ≤ 31 ∧ jsDateRoundTrip year p2 p1 then
          [⟨HKind.dmy, ⟨year, p2, p1⟩⟩] else [])
        ++
        (if 1 ≤ p1 ∧ p1 ≤ 12 ∧ 1 ≤ p2 ∧ p2 ≤ 31 ∧ jsDateRoundTrip year p1 p2 then
          [⟨HKind.mdy, ⟨year, p1, p2⟩⟩] else [])
    let cands := nativeCands ++ numericCands
    match cands.find? (fun c => c.kind = HKind.dmy) with
    | some dmyC => ⟨some dmyC.date, cands, some HKind.dmy⟩
    | none =>
      match cands.find? (fun c => c.kind = HKind.native) with
      | some nc => ⟨some nc.date, cands, some HKind.native⟩
      | none =>
        match cands.head? with
        | some c => ⟨some c.date, cands, some c.kind⟩
        | none => ⟨none, cands, none⟩

/-- Loop-step result of the part_001 main IIFE. -/
structure HRowStep where
  chosenDate : Option CivDate
  chosenKind : Option HKind
  keep : Bool
deriving DecidableEq, Repr

/-- The per-row body of the part_001 `--days` filter: start from the parse
result, and when both a DMY and an MDY candidate exist, let the retention
cutoff break the tie (lines 263–275). -/
def heuristicRowStep (native : Option CivDate) (cutoff : Int) (dateStr : String) : HRowStep :=
  let parsed := parseDateCandidates native dateStr
  let candDMY := parsed.candidates.find? fun c => c.kind = HKind.dmy
  let candMDY := parsed.candidates.find? fun c => c.kind = HKind.mdy
  let chosen : Option CivDate × Option HKind :=
    match candDMY, candMDY with
    | some dc, some mc =>
      let dmyOk := decide (getTimeMillis dc.date ≥ cutoff)
      let mdyOk := decide (getTimeMillis mc.date ≥ cutoff)
      if dmyOk && !mdyOk then (some dc.date, some HKind.dmy)
      else if mdyOk && !dmyOk then (some mc.date, some HKind.mdy)
      else (parsed.date, parsed.chosenKind)
    | _, _ => (parsed.date, parsed.chosenKind)
  let keep := match chosen.1 with
    | some d => decide (getTimeMillis d ≥ cutoff)
    | none => false
  ⟨chosen.1, chosen.2, keep⟩

/-! ## Retention pruning (`pruneOutputDir`, part_001 lines 214–236) -/

/-- `f.name.toLowerCase().endsWith('.docx')`. -/
def isDocxName (n : String) : Bool :=
  List.isSuffixOf ".docx".data (n.data.map Char.toLower)

/-- Directory entries (name, `mtimeMs`) filtered to artifacts and ordered by
modification time descending: a stable sort under the comparator
`(a, b) => b.mtime - a.mtime`. -/
def pruneFiles (entries : List (String × Int)) : List (String × Int) :=
  List.insertionSort (fun a b => b.2 ≤ a.2) (entries.filter fun e => isDocxName e.1)

/-- The slice `files.slice(keepN)` that `pruneOutputDir` deletes; empty when
`keepN` is not positive or no more than `keepN` artifacts exist. -/
def pruneToDelete (keepN : Int) (entries : List (String × Int)) : List (String × Int) :=
  if keepN ≤ 0 then []
  else
    let files := pruneFiles entries
    if (files.length : Int) ≤ keepN then []
    else files.drop keepN.toNat

/-- The names actually unlinked by the deletion loop: in dry-run nothing is
unlinked, and a file whose `unlinkSync` throws (`unlinkFails`) is logged and
skipped while the loop continues with the rest. -/
def pruneDeleted (keepN : Int) (entries : List (String × Int)) (dry : Bool)
    (unlinkFails : String → Bool) : List String :=
  (pruneToDelete keepN entries).filterMap fun f =>
    if dry then none else if unlinkFails f.1 then none else some f.1

/-! ## The JotForm poller watermark (`poll-jotform.js` lines 51–56, 153–220) -/

/-- JS `<` on strings: lexicographic comparison of UTF-16 code units (ASCII
submission identifiers make code units and characters agree). -/
def lexLtChars : List Char → List Char → Bool
  | [], [] => false
  | [], _ :: _ => true
  | _ :: _, [] => false
  | a :: as, b :: bs => if a < b then true else if b < a then false else lexLtChars as bs

/-- JS `a <= b` on strings. -/
def jsLeString (a b : String) : Bool :=
  ! lexLtChars b.data a.data

/-- One fetched submission: its identifier (`s.submission_id || s.id`, empty
when missing) and whether `generate(mapped)` succeeds for it (`false` covers
both a `false` return and a throw). -/
structure Submission where
  id : String
  ok : Bool
deriving DecidableEq, Repr

/-- The skip test of the loop: `if (last && sid <= last) continue`. -/
def skipsSubmission (last sid : String) : Bool :=
  last ≠ "" && jsLeString sid last

/-- The `newestSeen` accumulator over the (already reversed) submission list:
ids without a value or at or below the stored watermark are skipped, a
successful generation records the id, a failure leaves the accumulator. -/
def processNewFold (last : String) (subs : List Submission) : String :=
  subs.foldl
    (fun newestSeen s =>
      if s.id = "" then newestSeen
      else if skipsSubmission last s.id then newestSeen
      else if s.ok then s.id else newestSeen)
    last

/-- The watermark persisted at the end of `processNew`: submissions arrive
newest-first and are reversed, and `writeLastProcessed(newestSeen)` runs only
when `newestSeen` is non-empty and differs from the stored value. -/
def processNewWatermark (last : String) (fetched : List Submission) : String :=
  let newestSeen := processNewFold last fetched.reverse
  if newestSeen ≠ "" ∧ newestSeen ≠ last then newestSeen else last

/-- The identifiers on which the cycle invokes `generate`, in processing
order: the observable trace of the loop's non-skipped iterations. -/
def attemptedIds (last : String) (fetched : List Submission) : List String :=
  fetched.reverse.filterMap fun s =>
    if s.id = "" then none
    else if skipsSubmission last s.id then none
    else some s.id

/-- Predicate following the specification's words, for comparison with the
source's reconstruct-and-compare check: the parsed components form a real
calendar date (day within the actual length of the month), with no clamping to
a neighbouring date. -/
abbrev isRealCalendarDate (d : CivDate) : Prop :=
  1 ≤ d.month ∧ d.month ≤ 12 ∧ 1 ≤ d.day ∧ d.day ≤ daysInMonth d.year d.month

/-! ## Helper lemmas -/

theorem jsDateRoundTrip_real {y m d : Nat} (h : jsDateRoundTrip y m d = true) :
    isRealCalendarDate ⟨y, m, d⟩ := by
  simp only [jsDateRoundTrip, Bool.and_eq_true, decide_eq_true_eq] at h
  exact ⟨h.1.1.1.2, h.1.1.2, h.1.2, h.2⟩

theorem numericResolve_real {g1 g2 g3 : List Char} {d : CivDate}
    (h : (numericResolve g1 g2 g3).date = some d) : isRealCalendarDate d := by
  simp only [numericResolve] at h
  split_ifs at h with h1 h2
  · simp only [Option.some.injEq] at h
    exact h ▸ jsDateRoundTrip_real h2

theorem isoResolve_real {g1 g2 g3 : List Char} {d : CivDate}
    (h : (isoResolve g1 g2 g3).date = some d) : isRealCalendarDate d := by
  simp only [isoResolve] at h
  split_ifs at h with h1
  · simp only [Option.some.injEq] at h
    exact h ▸ jsDateRoundTrip_real h1

theorem textualDayFirstResolve_real {cleaned : List Char} {r : ParseOut} {d : CivDate}
    (hr : textualDayFirstResolve cleaned = some r) (h : r.date = some d) :
    isRealCalendarDate d := by
  simp only [textualDayFirstResolve] at hr
  split at hr
  · exact absurd hr (by simp)
  · split at hr
    · exact absurd hr (by simp)
    · split_ifs at hr with h1 h2
      · simp only [Option.some.injEq] at hr
        subst hr
        simp only [Option.some.injEq] at h
        exact h ▸ jsDateRoundTrip_real h2

theorem textualMonthFirstResolve_real {cleaned : List Char} {r : ParseOut} {d : CivDate}
    (hr : textualMonthFirstResolve cleaned = some r) (h : r.date = some d) :
    isRealCalendarDate d := by
  simp only [textualMonthFirstResolve] at hr
  split at hr
  · exact absurd hr (by simp)
  · split at hr
    · exact absurd hr (by simp)
    · split_ifs at hr with h1 h2
      · simp only [Option.some.injEq] at hr
        subst hr
        simp only [Option.some.injEq] at h
        exact h ▸ jsDateRoundTrip_real h2

theorem parseDateDeterministic_real {s : String} {d : CivDate}
    (h : (parseDateDeterministic s).date = some d) : isRealCalendarDate d := by
  by_cases hs : s = ""
  · simp [parseDateDeterministic, hs] at h
  · simp only [parseDateDeterministic, if_neg hs] at h
    rcases hnum : matchNumericRegex (trimJS s).data with _ | ⟨g1, g2, g3⟩
    · rw [hnum] at h
      rcases hiso : matchIsoRegex (trimJS s).data with _ | ⟨i1, i2, i3⟩
      · rw [hiso] at h
        rcases ht1 : textualDayFirstResolve (cleanTextual (trimJS s).data) with _ | r1
        · rw [ht1] at h
          rcases ht2 : textualMonthFirstResolve (cleanTextual (trimJS s).data) with _ | r2
          · rw [ht2] at h
            simp at h
          · rw [ht2] at h
            exact textualMonthFirstResolve_real ht2 h
        · rw [ht1] at h
          exact textualDayFirstResolve_real ht1 h
      · rw [hiso] at h
        exact isoResolve_real h
    · rw [hnum] at h
      exact numericResolve_real h

theorem daysFilterStep_keep_iff (cutoff : Int) (r : Row) :
    (daysFilterStep cutoff r).keep = true ↔
      ∃ d, (parseDateDeterministic (dateStrOfRow r)).date = some d ∧
        cutoff ≤ getTimeMillis d := by
  simp only [daysFilterStep]
  rcases hd : (parseDateDeterministic (dateStrOfRow r)).date with _ | d
  · simp [hd]
  · simp [hd, ge_iff_le]

theorem filterMap_guard_eq_filter (p : String → Bool) (l : List (String × Int)) :
    (l.filterMap fun f => if p f.1 then none else some f.1) =
      (l.map Prod.fst).filter fun n => ! p n := by
  induction l with
  | nil => rfl
  | cons a t ih =>
    by_cases hp : p a.1 = true <;>
      simp [List.filterMap_cons, List.filter_cons, hp, ih]

/-! ## Claim theorems -/

/-- C1.  The claim says the persisted watermark never advances to or past a
record whose artifact generation did not succeed, so the record is re-offered
on the next cycle.  The code violates this: `processNew` persists a single
`newestSeen` value at the end of the cycle, so when generation fails for id
"10" and then succeeds for the younger id "20" of the same batch, the
watermark "20" is persisted past the failed record, and the next cycle skips
"10" (offers it to nothing) instead of re-offering it — contradicting the
in-code comment "do not update last processed so it can be retried later". -/
theorem claim1_watermark_passes_failed_record :
    processNewWatermark "" [⟨"20", true⟩, ⟨"10", false⟩] = "20"
    ∧ jsLeString "10" "20" = true
    ∧ skipsSubmission "20" "10" = true
    ∧ attemptedIds "20" [⟨"10", false⟩] = [] := by
  decide

/-- C2.  Under the deterministic policy every string matching the numeric
`p1<sep>p2<sep>year` shape is resolved through `numericResolve`, which always
interprets the first capture as the day and the second as the month (kind
`dmy`), never month-first; in particular `"05/01/2026"` resolves to day 5,
month 1, year 2026. -/
theorem claim2_numeric_shape_day_first :
    (∀ (s : String) (g1 g2 g3 : List Char),
        matchNumericRegex (trimJS s).data = some (g1, g2, g3) →
        parseDateDeterministic s = numericResolve g1 g2 g3)
    ∧ (∀ (g1 g2 g3 : List Char) (d : CivDate),
        (numericResolve g1 g2 g3).date = some d →
        d.day = digitsToNat g1 ∧ d.month = digitsToNat g2 ∧
          (numericResolve g1 g2 g3).kind = some DKind.dmy)
    ∧ parseDateDeterministic "05/01/2026" = ⟨some ⟨2026, 1, 5⟩, some DKind.dmy⟩ := by
  refine ⟨?_, ?_, by decide⟩
  · intro s g1 g2 g3 hm
    by_cases hs : s = ""
    · subst hs
      rw [show matchNumericRegex (trimJS "").data = none from by decide] at hm
      exact absurd hm (by simp)
    · simp only [parseDateDeterministic, if_neg hs, hm]
  · intro g1 g2 g3 d h
    simp only [numericResolve] at h ⊢
    split_ifs at h ⊢ with h1 h2
    · simp only [Option.some.injEq] at h
      subst h
      exact ⟨rfl, rfl, rfl⟩

/-- C2 (witness): the theorem applied to the concrete input "05/01/2026" and
its captures. -/
theorem claim2_witness :
    parseDateDeterministic "05/01/2026" = numericResolve ['5'] ['1'] ['2', '0', '2', '6']
    ∧ (CivDate.mk 2026 1 5).day = digitsToNat ['5'] :=
  ⟨claim2_numeric_shape_day_first.1 "05/01/2026" ['5'] ['1'] ['2', '0', '2', '6'] (by decide),
   (claim2_numeric_shape_day_first.2.1 ['5'] ['1'] ['2', '0', '2', '6'] ⟨2026, 1, 5⟩ (by decide)).1⟩

/-- C3.  Whenever the deterministic resolver returns a date, the parsed
components form a real calendar date — the reconstruct-and-compare guard never
lets a clamped or rolled-over date through — and the invalid calendar date
"31/04/2025" (day 31 in April) yields none rather than a neighbouring date. -/
theorem claim3_roundtrip_rejects_invalid :
    (∀ (s : String) (d : CivDate),
        (parseDateDeterministic s).date = some d → isRealCalendarDate d)
    ∧ parseDateDeterministic "31/04/2025" = ⟨none, none⟩ :=
  ⟨fun _ _ h => parseDateDeterministic_real h, by decide⟩

/-- C3 (witness): the theorem applied to the concrete input "29/02/2024". -/
theorem claim3_witness : isRealCalendarDate ⟨2024, 2, 29⟩ :=
  claim3_roundtrip_rejects_invalid.1 "29/02/2024" ⟨2024, 2, 29⟩ (by decide)

/-- C4 (counterexample).  The claim that date resolution yields the same
resolved date and interpretation kind under different retention cutoffs fails
on the legacy heuristic pipeline of part_001: for the ambiguous string
"5/1/2026", a cutoff of 2020-01-01 resolves it as day-month-year 2026-01-05,
while a cutoff of 2026-03-01 lets the tie-break pick month-day-year 2026-05-01
(with or without a native free-form candidate). -/
theorem claim4_cutoff_changes_heuristic_resolution :
    ((heuristicRowStep none (getTimeMillis ⟨2020, 1, 1⟩) "5/1/2026").chosenDate ≠
      (heuristicRowStep none (getTimeMillis ⟨2026, 3, 1⟩) "5/1/2026").chosenDate)
    ∧ ((heuristicRowStep none (getTimeMillis ⟨2020, 1, 1⟩) "5/1/2026").chosenKind ≠
      (heuristicRowStep none (getTimeMillis ⟨2026, 3, 1⟩) "5/1/2026").chosenKind)
    ∧ ((heuristicRowStep (some ⟨2026, 5, 1⟩) (getTimeMillis ⟨2020, 1, 1⟩) "5/1/2026").chosenDate ≠
      (heuristicRowStep (some ⟨2026, 5, 1⟩) (getTimeMillis ⟨2026, 3, 1⟩) "5/1/2026").chosenDate) := by
  decide

/-- C4 (amended).  Under the deterministic policy of fillFromSheet.js the
claim holds: the per-row resolution step of the retention filter yields the
same resolved date and the same interpretation kind whatever the cutoff, so
resolution is a pure function of the raw string alone. -/
theorem claim4_deterministic_resolution_cutoff_free :
    ∀ (cutoff cutoff' : Int) (r : Row),
      (daysFilterStep cutoff r).chosenDate = (daysFilterStep cutoff' r).chosenDate
      ∧ (daysFilterStep cutoff r).chosenKind = (daysFilterStep cutoff' r).chosenKind := by
  intro cutoff cutoff' r
  simp [daysFilterStep]

/-- C5.  With `days ≤ 0` the retention filter passes every row unchanged; with
`days > 0` a row is kept iff its resolved date exists and its time is at least
`now − days·86400000` ms (the boundary is inclusive).  Concretely, with a
7-day window and `now` at 2026-01-12 midnight, a row dated 2026-01-05 sits
exactly on the cutoff and is kept, while moving `now` one second later
excludes it. -/
theorem claim5_retention_window :
    (∀ (days now : Int) (rows : List Row), days ≤ 0 → daysFilter days now rows = rows)
    ∧ (∀ (days now : Int) (rows : List Row) (r : Row), 0 < days →
        (r ∈ daysFilter days now rows ↔
          r ∈ rows ∧ ∃ d, (parseDateDeterministic (dateStrOfRow r)).date = some d ∧
            now - days * 86400000 ≤ getTimeMillis d))
    ∧ getTimeMillis ⟨2026, 1, 5⟩ = getTimeMillis ⟨2026, 1, 12⟩ - 7 * 86400000
    ∧ daysFilter 7 (getTimeMillis ⟨2026, 1, 12⟩) [[("Date", "5/1/2026")]]
        = [[("Date", "5/1/2026")]]
    ∧ daysFilter 7 (getTimeMillis ⟨2026, 1, 12⟩ + 1000) [[("Date", "5/1/2026")]] = [] := by
  refine ⟨?_, ?_, by decide, by decide, by decide⟩
  · intro days now rows hle
    simp only [daysFilter]
    rw [if_neg (by omega)]
  · intro days now rows r hpos
    simp only [daysFilter]
    rw [if_pos hpos, List.mem_filter]
    have harith : now - days * (24 * 60 * 60 * 1000) = now - days * 86400000 := by norm_num
    rw [harith, daysFilterStep_keep_iff]

/-- C5 (witness): the boundary row is kept by the theorem's keep criterion. -/
theorem claim5_witness :
    [("Date", "5/1/2026")] ∈ daysFilter 7 (getTimeMillis ⟨2026, 1, 12⟩) [[("Date", "5/1/2026")]] :=
  (claim5_retention_window.2.1 7 (getTimeMillis ⟨2026, 1, 12⟩) [[("Date", "5/1/2026")]]
      [("Date", "5/1/2026")] (by decide)).mpr
    ⟨by decide, ⟨2026, 1, 5⟩, by decide, by decide⟩

/-- C6.  Under skip-if-exists (no force), a call whose target path already
exists leaves the filesystem untouched and reports skipped; starting from a
state without the target, writing twice produces exactly one binding of the
path, with the second call reporting skipped and leaving the state unchanged;
under force-overwrite the writer always writes the rendered bytes to the
target and reports not skipped, whatever the prior state. -/
theorem claim6_skip_and_force_modes :
    (∀ (α : Type) (outdir : String) (dry : Bool) (st : FsState α) (data : TplData) (buf : α),
      st.outDirExists = true →
      (st.files.lookup (computedPath outdir data)).isSome = true →
      filenameDateOk data.DATE = true →
      createDocx outdir false dry true st data buf =
        (st, Except.ok ⟨true, computedPath outdir data, false⟩))
    ∧ (∀ (α : Type) (outdir : String) (st : FsState α) (data : TplData) (buf : α),
      st.files.lookup (computedPath outdir data) = none →
      filenameDateOk data.DATE = true →
      (createDocx outdir false false true st data buf).2 =
          Except.ok ⟨false, computedPath outdir data, false⟩
      ∧ ((createDocx outdir false false true st data buf).1.files.countP
          fun q => q.1 = computedPath outdir data) = 1
      ∧ createDocx outdir false false true
            ((createDocx outdir false false true st data buf).1) data buf =
          ((createDocx outdir false false true st data buf).1,
            Except.ok ⟨true, computedPath outdir data, false⟩))
    ∧ (∀ (α : Type) (outdir : String) (st : FsState α) (data : TplData) (buf : α),
      filenameDateOk data.DATE = true →
      (createDocx outdir true false true st data buf).2 =
          Except.ok ⟨false, computedPath outdir data, false⟩
      ∧ (createDocx outdir true false true st data buf).1.files.lookup
          (computedPath outdir data) = some buf) := by
  have hguard : ∀ raw : String, filenameDateOk raw = true →
      ¬ (safeDateOfRaw raw ≠ "nodate" ∧ ¬ finalDateRegexTest (safeDateOfRaw raw) = true) := by
    intro raw h
    simp only [filenameDateOk, Bool.or_eq_true, decide_eq_true_eq] at h
    rintro ⟨hne, hnt⟩
    rcases h with h | h
    · exact hne h
    · exact hnt h
  refine ⟨?_, ?_, ?_⟩
  · intro α outdir dry st data buf hdir hsome hok
    obtain ⟨sdir, sfiles⟩ := st
    simp only [FsState.outDirExists] at hdir
    subst hdir
    simp only [createDocx]
    rw [if_neg (by simp)]
    rw [if_neg (hguard data.DATE hok)]
    rw [if_pos ?_]
    · simp only [FsState.files] at hsome
      exact ⟨hsome, by simp⟩
  · intro α outdir st data buf hnone hok
    obtain ⟨sdir, sfiles⟩ := st
    simp only [FsState.files] at hnone
    have hfirst : createDocx outdir false false true (⟨sdir, sfiles⟩ : FsState α) data buf =
        (⟨true, fsWrite (computedPath outdir data) buf sfiles⟩,
          Except.ok ⟨false, computedPath outdir data, false⟩) := by
      simp only [createDocx]
      rw [if_neg (by simp)]
      rw [if_neg (hguard data.DATE hok)]
      rw [if_neg ?_, if_neg (by simp)]
      · intro hcon
        rw [hnone] at hcon
        simp at hcon
    rw [hfirst]
    refine ⟨rfl, ?_, ?_⟩
    · simp only [fsWrite, List.countP_cons]
      rw [List.countP_eq_zero.mpr ?_]
      · simp
      · intro q hq
        simp only [List.mem_filter, decide_eq_true_eq] at hq
        simp only [decide_eq_true_eq]
        exact hq.2
    · simp only [createDocx]
      rw [if_neg (by simp)]
      rw [if_neg (hguard data.DATE hok)]
      rw [if_pos ?_]
      · refine ⟨?_, by simp⟩
        simp only [fsWrite, List.lookup]
        simp
  · intro α outdir st data buf hok
    obtain ⟨sdir, sfiles⟩ := st
    have hrun : createDocx outdir true false true (⟨sdir, sfiles⟩ : FsState α) data buf =
        (⟨true, fsWrite (computedPath outdir data) buf sfiles⟩,
          Except.ok ⟨false, computedPath outdir data, false⟩) := by
      simp only [createDocx]
      rw [if_neg (by simp)]
      rw [if_neg (hguard data.DATE hok)]
      rw [if_neg (by simp), if_neg (by simp)]
    rw [hrun]
    refine ⟨rfl, ?_⟩
    simp [fsWrite, List.lookup]

/-- C6 (witness): the theorem's skip clause applied to a concrete state that
already holds the scenario artifact. -/
theorem claim6_witness :
    createDocx "output" false false true
        (⟨true, [("output/5-1-2026-J Smith-42.docx", (0 : Nat))]⟩ : FsState Nat)
        ⟨"J Smith", "5/1/26", "42"⟩ 7 =
      (⟨true, [("output/5-1-2026-J Smith-42.docx", (0 : Nat))]⟩,
        Except.ok ⟨true, "output/5-1-2026-J Smith-42.docx", false⟩) := by
  have h := claim6_skip_and_force_modes.1 Nat "output" false
    (⟨true, [("output/5-1-2026-J Smith-42.docx", (0 : Nat))]⟩ : FsState Nat)
    ⟨"J Smith", "5/1/26", "42"⟩ 7 rfl (by decide) (by decide)
  rw [h]
  rw [show computedPath "output" (⟨"J Smith", "5/1/26", "42"⟩ : TplData) =
    "output/5-1-2026-J Smith-42.docx" from by decide]

/-- C7 (counterexample).  Dry-run is claimed never to touch the filesystem,
but `createDocx` runs `fs.ensureDirSync(OUTPUT_DIR)` before the dry-run check:
starting from a state without the output directory, a dry-run invocation
creates the directory while reporting the dry result. -/
theorem claim7_dry_run_creates_output_directory :
    ((createDocx "output" false true true (⟨false, []⟩ : FsState Nat)
        ⟨"J Smith", "5/1/26", "42"⟩ 0).1.outDirExists = true)
    ∧ ((⟨false, []⟩ : FsState Nat).outDirExists = false)
    ∧ ((createDocx "output" false true true (⟨false, []⟩ : FsState Nat)
        ⟨"J Smith", "5/1/26", "42"⟩ 0).2 =
        Except.ok ⟨false, "output/5-1-2026-J Smith-42.docx", true⟩) :=
  ⟨rfl, rfl, rfl⟩

/-- C7 (amended).  Under dry-run the writer never creates, modifies or deletes
a file, and the dry pruning loop unlinks nothing; the only filesystem effect of
a dry run is that the output directory is ensured to exist (it is created when
the template exists and the directory was missing). -/
theorem claim7_dry_run_writes_no_files :
    ∀ (α : Type) (outdir : String) (force tmplExists : Bool) (st : FsState α)
      (data : TplData) (buf : α),
      ((createDocx outdir force true tmplExists st data buf).1.files = st.files)
      ∧ ((createDocx outdir force true tmplExists st data buf).1.outDirExists =
          (st.outDirExists || tmplExists))
      ∧ (∀ (keepN : Int) (entries : List (String × Int)) (unlinkFails : String → Bool),
          pruneDeleted keepN entries true unlinkFails = []) := by
  intro α outdir force tmplExists st data buf
  refine ⟨?_, ?_, ?_⟩
  · simp only [createDocx]
    split_ifs <;> rfl
  · simp only [createDocx]
    split_ifs with h <;> simp_all
  · intro keepN entries unlinkFails
    simp [pruneDeleted]

/-- C8 (counterexample).  For the scenario record the claim gives the artifact
path `{outdir}/5-1-2026-J_Smith-42.{ext}`, but `safeFilename` of
fillFromSheet.js only replaces path-hostile characters and trims: it does not
collapse internal whitespace to underscores, so the computed path keeps the
space in "J Smith". -/
theorem claim8_scenario_path_keeps_space :
    computedPath "outdir"
        (mapSheetRowToTemplateFields [("Date", "5/1/26"), ("Name", "J Smith"), ("Job Number", "42")])
      = "outdir/5-1-2026-J Smith-42.docx"
    ∧ computedPath "outdir"
        (mapSheetRowToTemplateFields [("Date", "5/1/26"), ("Name", "J Smith"), ("Job Number", "42")])
      ≠ "outdir/5-1-2026-J_Smith-42.docx" := by
  decide

/-- C8 (amended).  The scenario record resolves to 2026-01-05 under the
deterministic policy and maps to `{outdir}/5-1-2026-J Smith-42.docx`;
sanitization replaces every path-hostile character with `-` (so none remains
in any sanitized component) and trims leading and trailing whitespace, leaving
internal whitespace unchanged. -/
theorem claim8_scenario_resolution_and_path :
    parseDateDeterministic "5/1/26" = ⟨some ⟨2026, 1, 5⟩, some DKind.dmy⟩
    ∧ (∀ outdir : String,
        computedPath outdir
            (mapSheetRowToTemplateFields
              [("Date", "5/1/26"), ("Name", "J Smith"), ("Job Number", "42")])
          = outdir ++ "/5-1-2026-J Smith-42.docx")
    ∧ (∀ s : String, ∀ c ∈ (safeFilename s).data, hostileChar c = false) := by
  refine ⟨by decide, ?_, ?_⟩
  · intro outdir
    have hmap : mapSheetRowToTemplateFields
        [("Date", "5/1/26"), ("Name", "J Smith"), ("Job Number", "42")] =
        ⟨"J Smith", "5/1/26", "42"⟩ := by decide
    rw [hmap]
    show outdir ++ "/" ++ safeDateOfRaw "5/1/26" ++ "-" ++ safeFilename (jsOr "J Smith" "NONAME")
        ++ "-" ++ safeFilename (jsOr "42" "NOJOBNO") ++ ".docx" = _
    rw [show safeDateOfRaw "5/1/26" = "5-1-2026" from by decide]
    rw [show safeFilename (jsOr "J Smith" "NONAME") = "J Smith" from by decide]
    rw [show safeFilename (jsOr "42" "NOJOBNO") = "42" from by decide]
    rw [String.append_assoc, String.append_assoc, String.append_assoc,
      String.append_assoc, String.append_assoc, String.append_assoc]
    exact congrArg (fun t => outdir ++ t) (by decide)
  · intro s c hc
    simp only [safeFilename, trimJS, trimJsList] at hc
    rw [List.mem_reverse] at hc
    have hc2 := (List.dropWhile_sublist jsWhitespace).subset hc
    rw [List.mem_reverse] at hc2
    have hc3 := (List.dropWhile_sublist jsWhitespace).subset hc2
    rcases List.mem_map.mp hc3 with ⟨a, _, ha⟩
    by_cases hhc : hostileChar a = true
    · simp only [hhc, if_true] at ha
      subst ha
      decide
    · simp only [Bool.not_eq_true] at hhc
      simp only [hhc, if_false] at ha
      subst ha
      exact hhc

/-- C8 (witness): the amended theorem applied to the concrete output
directory "output" and to the sanitized character 'J' of "J/Smith". -/
theorem claim8_witness :
    computedPath "output"
        (mapSheetRowToTemplateFields
          [("Date", "5/1/26"), ("Name", "J Smith"), ("Job Number", "42")])
      = "output" ++ "/5-1-2026-J Smith-42.docx"
    ∧ hostileChar 'J' = false :=
  ⟨claim8_scenario_resolution_and_path.2.1 "output",
   claim8_scenario_resolution_and_path.2.2 "J/Smith" 'J' (by decide)⟩

/-- C9.  With retention `K > 0` and distinct modification times: when at most
`K` artifacts exist nothing is deleted; when `N > K` artifacts exist the
deletion slice has exactly `N − K` entries, the retained prefix has exactly
`K` entries, every deleted artifact is strictly older than every retained one,
and with no unlink failures exactly those names are unlinked; a single unlink
failure only removes that name from the deleted list, the rest are still
unlinked. -/
theorem claim9_prune_retains_newest :
    ∀ (K : Int) (entries : List (String × Int)),
      0 < K →
      (entries.filter fun e => isDocxName e.1).Pairwise (fun a b => a.2 ≠ b.2) →
      ((((pruneFiles entries).length : Int) ≤ K → pruneToDelete K entries = [])
      ∧ (K < ((pruneFiles entries).length : Int) →
          ((pruneToDelete K entries).length : Int) = ((pruneFiles entries).length : Int) - K
          ∧ (pruneFiles entries).take K.toNat ++ pruneToDelete K entries = pruneFiles entries
          ∧ (((pruneFiles entries).take K.toNat).length : Int) = K
          ∧ (∀ f ∈ pruneToDelete K entries, ∀ g ∈ (pruneFiles entries).take K.toNat, f.2 < g.2)
          ∧ pruneDeleted K entries false (fun _ => false) = (pruneToDelete K entries).map Prod.fst)
      ∧ (pruneFiles entries).Perm (entries.filter fun e => isDocxName e.1)
      ∧ (∀ unlinkFails : String → Bool,
          pruneDeleted K entries false unlinkFails =
            ((pruneToDelete K entries).map Prod.fst).filter fun n => ! unlinkFails n)) := by
  intro K entries hK hdist
  have hKne : ¬ K ≤ 0 := by omega
  have hperm : (pruneFiles entries).Perm (entries.filter fun e => isDocxName e.1) := by
    unfold pruneFiles
    exact List.perm_insertionSort _ _
  have hfails : ∀ unlinkFails : String → Bool,
      pruneDeleted K entries false unlinkFails =
        ((pruneToDelete K entries).map Prod.fst).filter fun n => ! unlinkFails n := by
    intro unlinkFails
    have h1 : pruneDeleted K entries false unlinkFails =
        (pruneToDelete K entries).filterMap fun f =>
          if unlinkFails f.1 then none else some f.1 := by
      simp [pruneDeleted]
    rw [h1, filterMap_guard_eq_filter]
  refine ⟨?_, ?_, hperm, hfails⟩
  · intro hle
    simp only [pruneToDelete]
    rw [if_neg hKne, if_pos hle]
  · intro hlt
    have hdel : pruneToDelete K entries = (pruneFiles entries).drop K.toNat := by
      simp only [pruneToDelete]
      rw [if_neg hKne, if_neg (by omega)]
    have hsorted : (pruneFiles entries).Pairwise (fun a b => b.2 ≤ a.2) := by
      haveI ht : IsTotal (String × Int) (fun a b => b.2 ≤ a.2) := ⟨fun a b => le_total b.2 a.2⟩
      haveI htr : IsTrans (String × Int) (fun a b => b.2 ≤ a.2) :=
        ⟨fun a b c hab hbc => le_trans hbc hab⟩
      unfold pruneFiles
      exact List.sorted_insertionSort _ _
    have hne2 : (pruneFiles entries).Pairwise (fun a b => a.2 ≠ b.2) :=
      (List.Perm.pairwise_iff (fun h => Ne.symm h) hperm).mpr hdist
    rw [← List.take_append_drop K.toNat (pruneFiles entries)] at hsorted hne2
    have hcross1 := (List.pairwise_append.mp hsorted).2.2
    have hcross2 := (List.pairwise_append.mp hne2).2.2
    refine ⟨?_, ?_, ?_, ?_, ?_⟩
    · rw [hdel, List.length_drop]
      omega
    · rw [hdel]
      exact List.take_append_drop _ _
    · rw [List.length_take]
      omega
    · intro f hf g hg
      rw [hdel] at hf
      exact lt_of_le_of_ne (hcross1 g hg f hf) (Ne.symm (hcross2 g hg f hf))
    · rw [hfails fun _ => false]
      simp

/-- C9 (witness): pruning two artifacts down to one deletes exactly the older
one. -/
theorem claim9_witness :
    pruneDeleted 1 [("a.docx", 0), ("b.docx", 5)] false (fun _ => false) = ["a.docx"] := by
  have h := ((claim9_prune_retains_newest 1 [("a.docx", 0), ("b.docx", 5)]
    (by decide) (by decide)).2.1 (by decide)).2.2.2.2
  rw [h]
  decide

/-- C10.  The watermark acceptance of `processNew` compares identifiers as JS
strings: a fetched submission with a non-empty id is offered to the generator
iff the stored watermark is empty or the id is not lexicographically at or
below the watermark; identifiers of different digit lengths are ordered
character-wise, so "999" compares greater than "1000", while "1000" is skipped
under watermark "999". -/
theorem claim10_watermark_lexicographic :
    (∀ (last : String) (fetched : List Submission) (sid : String), sid ≠ "" →
      (sid ∈ attemptedIds last fetched ↔
        (∃ s ∈ fetched, s.id = sid) ∧ ¬ (last ≠ "" ∧ jsLeString sid last = true)))
    ∧ skipsSubmission "1000" "999" = false
    ∧ skipsSubmission "999" "1000" = true
    ∧ jsLeString "999" "1000" = false := by
  refine ⟨?_, by decide, by decide, by decide⟩
  intro last fetched sid hsid
  simp only [attemptedIds, List.mem_filterMap, List.mem_reverse]
  constructor
  · rintro ⟨s, hs, hf⟩
    by_cases h1 : s.id = ""
    · rw [if_pos h1] at hf
      exact absurd hf (by simp)
    · rw [if_neg h1] at hf
      by_cases h2 : skipsSubmission last s.id = true
      · rw [if_pos h2] at hf
        exact absurd hf (by simp)
      · rw [if_neg h2] at hf
        simp only [Option.some.injEq] at hf
        subst hf
        refine ⟨⟨s, hs, rfl⟩, ?_⟩
        simp only [skipsSubmission, Bool.and_eq_true, decide_eq_true_eq] at h2
        intro hcon
        exact h2 ⟨hcon.1, hcon.2⟩
  · rintro ⟨⟨s, hs, hid⟩, hnot⟩
    refine ⟨s, hs, ?_⟩
    rw [hid]
    rw [if_neg hsid]
    rw [if_neg ?_]
    · simp only [skipsSubmission, Bool.and_eq_true, decide_eq_true_eq]
      intro hcon
      exact hnot ⟨hcon.1, hcon.2⟩

/-- C10 (witness): under watermark "1000" the id "999" is offered again,
because "999" is lexicographically greater than "1000". -/
theorem claim10_witness : "999" ∈ attemptedIds "1000" [⟨"999", true⟩] :=
  ((claim10_watermark_lexicographic.1 "1000" [⟨"999", true⟩] "999" (by decide)).mpr
    (by decide))

end RJD
